import Mathlib

/-!
Shallow embedding of the face-extraction and container-assembly pipeline
(`crop.py`, `create_ktx.py`, `blender-envmap.py`) of the blender-envmap
repository.  External processes (the image tool, the container tool, the
renderer) are modelled by explicit environments recording, for each
invocation the code performs, whether the spawn raised and what the child
process returned; the filesystem is modelled by boolean predicates on path
strings.
-/

namespace BlenderEnvmap

/-! ## crop.py: constants -/

/-- `OUTPUT_DIR = "output/cropped"` (crop.py). -/
def OUTPUT_DIR : String := "output/cropped"

/-- `MIP_LEVELS = list(range(10))` (crop.py). -/
def MIP_LEVELS : List Nat := List.range 10

/-- Face size computed in `process_roughness_level`:
`base_size = 512; size = base_size // (2 ** mip_level)` (crop.py lines 92-93). -/
def faceSize (mip_level : Nat) : Nat := 512 / 2 ^ mip_level

/-- Composite input image path: `f"output/cubemap_mip{mip_level}.hdr"`. -/
def mipInputFile (mip_level : Nat) : String :=
  "output/cubemap_mip" ++ toString mip_level ++ ".hdr"

/-- Composite diffuse input image path: `"output/cubemap_diffuse.hdr"`. -/
def diffuseInputFile : String := "output/cubemap_diffuse.hdr"

/-! ## crop.py: the two face-position tables

The source repeats the same literal list in `process_roughness_level`
(lines 119-126) and in `process_diffuse_cubemap` (lines 196-203); each is
embedded separately so they can be compared. -/

/-- The `faces` list of `process_roughness_level` (crop.py lines 119-126):
`(output_file, x, y)` triples. -/
def roughnessFaces (size : Nat) : List (String × Nat × Nat) :=
  [ ("0001.exr", size*3, size),    -- BACK
    ("0002.exr", size, size),      -- FRONT
    ("0003.exr", size*2, 0),       -- TOP
    ("0004.exr", size*2, size*2),  -- BOTTOM
    ("0005.exr", size*2, size),    -- RIGHT
    ("0006.exr", 0, size) ]        -- LEFT

/-- The `faces` list of `process_diffuse_cubemap` (crop.py lines 196-203). -/
def diffuseFaces (size : Nat) : List (String × Nat × Nat) :=
  [ ("0001.exr", size*3, size),    -- BACK
    ("0002.exr", size, size),      -- FRONT
    ("0003.exr", size*2, 0),       -- TOP
    ("0004.exr", size*2, size*2),  -- BOTTOM
    ("0005.exr", size*2, size),    -- RIGHT
    ("0006.exr", 0, size) ]        -- LEFT

/-! ## Spec-side face geometry table (§4.1 of the spec)

These definitions follow the spec's words (`FaceSlot`, cell offsets in
face-size units, 1-based numeric file names) and are compared with the
source tables above. -/

/-- The six face identities of the spec's FaceSlot table. -/
inductive FaceSlot where
  | BACK | FRONT | TOP | BOTTOM | RIGHT | LEFT
deriving DecidableEq, Inhabited

/-- Cell offsets (in units of `faceSize`) of the spec's table:
BACK=(3,1), FRONT=(1,1), TOP=(2,0), BOTTOM=(2,2), RIGHT=(2,1), LEFT=(0,1). -/
def faceCell : FaceSlot → Nat × Nat
  | .BACK => (3, 1)
  | .FRONT => (1, 1)
  | .TOP => (2, 0)
  | .BOTTOM => (2, 2)
  | .RIGHT => (2, 1)
  | .LEFT => (0, 1)

/-- The fixed face ordering used for the 1-based numeric filename index. -/
def slotOrder : List FaceSlot :=
  [.BACK, .FRONT, .TOP, .BOTTOM, .RIGHT, .LEFT]

/-- Zero-padded 4-digit rendering of a natural number (`f"{i:04d}"`). -/
def pad4 (n : Nat) : String :=
  let s := toString n
  String.mk (List.replicate (4 - s.length) '0') ++ s

/-- The spec's face geometry table rendered in the source's
`(filename, x, y)` format: the `k`-th slot (0-based) gets file
`pad4 (k+1) ++ ".exr"` and offsets `faceCell * faceSize`. -/
def specFaceTable (size : Nat) : List (String × Nat × Nat) :=
  slotOrder.enum.map fun p =>
    (pad4 (p.1 + 1) ++ ".exr",
     (faceCell p.2).1 * size,
     (faceCell p.2).2 * size)

/-- Membership in the `size × size` rectangle that the face table assigns
to `slot`: the half-open square with corner `faceCell slot * size`. -/
def rectMem (slot : FaceSlot) (size : Nat) (p : Nat × Nat) : Prop :=
  (faceCell slot).1 * size ≤ p.1 ∧ p.1 < (faceCell slot).1 * size + size ∧
  (faceCell slot).2 * size ≤ p.2 ∧ p.2 < (faceCell slot).2 * size + size

instance (slot : FaceSlot) (size : Nat) (p : Nat × Nat) :
    Decidable (rectMem slot size p) := by
  unfold rectMem; infer_instance

/-! ## crop.py: `extract_cubemap_face` -/

/-- Outcome of the external-tool world for one `extract_cubemap_face`
call: for each of the three process invocations the code can make (cut,
info query, corrective re-encode), whether the spawn raised, and the
returncode / captured stdout where the code reads them. -/
structure ExtractEnv where
  cutRaises : Bool
  cutReturncode : Int
  verifyRaises : Bool
  infoOutput : List Char
  resizeRaises : Bool
  resizeReturncode : Int

/-- The substring `f"{size} x {size}"` checked against the info output. -/
def sizePattern (size : Nat) : List Char :=
  (toString size ++ " x " ++ toString size).toList

/-- Python's `pat in s` substring test, on character lists. -/
def containsSub (pat s : List Char) : Bool := decide (pat <:+: s)

/-- One external-tool invocation performed by `extract_cubemap_face`. -/
inductive ToolCall where
  | cut (input output : String) (x y x1 y1 : Nat)
  | info (path : String)
  | reencode (path : String)
deriving DecidableEq

/-- Shallow embedding of `extract_cubemap_face` (crop.py lines 20-83).
Returns the boolean result together with the list of external-tool
invocations attempted.  The whole body is wrapped in `try/except` in the
source: a raising spawn anywhere yields `False`; a non-zero cut
returncode yields `False`; a dimension mismatch triggers one corrective
re-encode whose non-zero returncode is only logged. -/
def extract_cubemap_face (env : ExtractEnv) (input_path output_path : String)
    (x y size : Nat) : Bool × List ToolCall :=
  let cutCall := ToolCall.cut input_path output_path x y (x+size-1) (y+size-1)
  if env.cutRaises then (false, [cutCall])
  else if env.cutReturncode ≠ 0 then (false, [cutCall])
  else
    let calls := [cutCall, ToolCall.info output_path]
    if env.verifyRaises then (false, calls)
    else if containsSub (sizePattern size) env.infoOutput then (true, calls)
    else
      -- corrective pass: `resize_process.returncode != 0` is only logged
      let calls := calls ++ [ToolCall.reencode output_path]
      if env.resizeRaises then (false, calls)
      else (true, calls)

/-! ## crop.py: `process_roughness_level`, `process_diffuse_cubemap`,
`process_mip_levels`

The filesystem is a pair of predicates `fileFs`/`dirFs` on path strings;
`os.makedirs(..., exist_ok=True)` is modelled as the evident update of
`dirFs`.  Per-face external-tool outcomes are supplied by an
`ExtractEnv`-valued environment indexed by the face's position in the
`faces` list. -/

/-- Observable outcome of one `process_roughness_level` /
`process_diffuse_cubemap` run. -/
structure LevelRun where
  /-- The boolean the function returns. -/
  success : Bool
  /-- The level's target directory. -/
  targetDir : String
  /-- Directory-existence predicate after the run (the target directory
  is ensured before the input-existence check). -/
  dirExistsAfter : String → Bool
  /-- `(input, output_path, x, y, size)` for each face extraction
  launched. -/
  extractions : List (String × String × Nat × Nat × Nat)
  /-- The six gathered face results (empty when no extraction ran). -/
  faceResults : List Bool

/-- Shallow embedding of `process_roughness_level` (crop.py lines
85-166).  `envs k` is the external world seen by the `k`-th face's
`extract_cubemap_face` call; progress-bar plumbing is omitted (display
only). -/
def process_roughness_level (fileFs dirFs : String → Bool)
    (envs : Nat → ExtractEnv) (roughness_index : Nat)
    (output_subdir : Option String) : LevelRun :=
  let mip_level := roughness_index
  let input_file := mipInputFile mip_level
  let size := faceSize mip_level
  let target_dir := match output_subdir with
    | none => OUTPUT_DIR
    | some s => OUTPUT_DIR ++ "/" ++ s
  -- `os.makedirs(target_dir, exist_ok=True)` guarded by `os.path.exists`:
  -- either way the directory exists afterwards
  let dirFs' := fun d => d == target_dir || dirFs d
  if ¬ fileFs input_file then
    { success := false, targetDir := target_dir, dirExistsAfter := dirFs',
      extractions := [], faceResults := [] }
  else
    -- (an `oiiotool --info` query on the input runs here; its output is unused)
    let faces := roughnessFaces size
    let runs := faces.enum.map fun p =>
      let final_output_file := match output_subdir with
        | none => "mip" ++ toString mip_level ++ "_" ++ p.2.1
        | some _ => p.2.1
      let output_path := target_dir ++ "/" ++ final_output_file
      ((input_file, output_path, p.2.2.1, p.2.2.2, size),
       extract_cubemap_face (envs p.1) input_file output_path p.2.2.1 p.2.2.2 size)
    let face_results := runs.map fun r => r.2.1
    { success := face_results.all id, targetDir := target_dir,
      dirExistsAfter := dirFs', extractions := runs.map Prod.fst,
      faceResults := face_results }

/-- Shallow embedding of `process_diffuse_cubemap` (crop.py lines
168-227): fixed `size = 32`, dedicated `diffuse` subdirectory, same face
table and fan-out. -/
def process_diffuse_cubemap (fileFs dirFs : String → Bool)
    (envs : Nat → ExtractEnv) : LevelRun :=
  let input_file := diffuseInputFile
  let size := 32
  let diffuse_dir := OUTPUT_DIR ++ "/" ++ "diffuse"
  let dirFs' := fun d => d == diffuse_dir || dirFs d
  if ¬ fileFs input_file then
    { success := false, targetDir := diffuse_dir, dirExistsAfter := dirFs',
      extractions := [], faceResults := [] }
  else
    let faces := diffuseFaces size
    let runs := faces.enum.map fun p =>
      let output_path := diffuse_dir ++ "/" ++ p.2.1
      ((input_file, output_path, p.2.2.1, p.2.2.2, size),
       extract_cubemap_face (envs p.1) input_file output_path p.2.2.1 p.2.2.2 size)
    let face_results := runs.map fun r => r.2.1
    { success := face_results.all id, targetDir := diffuse_dir,
      dirExistsAfter := dirFs', extractions := runs.map Prod.fst,
      faceResults := face_results }

/-- Shallow embedding of `process_mip_levels` (crop.py lines 229-303):
one task per mip level (subdirectory `mip{i}`) plus the diffuse task, all
gathered; returns `all(results)` together with the gathered per-task
results.  `envs i k` is the world seen by face `k` of mip `i`; `denvs k`
by face `k` of the diffuse level. -/
def process_mip_levels (fileFs dirFs : String → Bool)
    (envs : Nat → Nat → ExtractEnv) (denvs : Nat → ExtractEnv) :
    Bool × List Bool :=
  let mipResults := MIP_LEVELS.map fun mip_level =>
    (process_roughness_level fileFs dirFs (envs mip_level) mip_level
      (some ("mip" ++ toString mip_level))).success
  let results := mipResults ++ [(process_diffuse_cubemap fileFs dirFs denvs).success]
  (results.all id, results)

/-! ## create_ktx.py: `create_specular_ktx` -/

/-- `MIP_LEVELS = list(range(9))` (create_ktx.py line 17): one fewer
level than extraction produces. -/
def KTX_MIP_LEVELS : List Nat := List.range 9

/-- `VK_FORMAT` (create_ktx.py lines 18-19: assigned twice, the second
assignment wins). -/
def VK_FORMAT : String := "R16G16B16A16_SFLOAT"

/-- `os.path.join(input_dir, f"mip{mip_level}")`. -/
def ktxMipDir (input_dir : String) (mip_level : Nat) : String :=
  input_dir ++ "/mip" ++ toString mip_level

/-- `os.path.join(mip_dir, f"{i:04d}.exr")`. -/
def ktxFaceFile (mip_dir : String) (i : Nat) : String :=
  mip_dir ++ "/" ++ pad4 i ++ ".exr"

/-- The fixed prefix of the specular `ktx create` command
(create_ktx.py lines 35-43). -/
def specKtxCmdPrefix : List String :=
  ["ktx", "create", "--format", VK_FORMAT, "--assign-tf", "linear",
   "--cubemap", "--zstd", "3", "--levels", "9"]

/-- External world of one `create_specular_ktx` call: whether the
container-tool spawn raised, its returncode, and whether the `ktx info`
readback/parse raised (all inside the source's `try`). -/
structure KtxEnv where
  toolRaises : Bool
  toolReturncode : Int
  infoRaises : Bool

/-- The inner face loop of `create_specular_ktx` (create_ktx.py lines
64-74): `for i in range(1, 7)`, append the face file to
`missing_files` when absent, to `input_files` otherwise. -/
def specFacePartition (fileFs : String → Bool) (mip_dir : String)
    (acc : List String × List String) : List String × List String :=
  (List.range' 1 6).foldl
    (fun acc2 i =>
      let face_file := ktxFaceFile mip_dir i
      if ¬ fileFs face_file then (acc2.1, acc2.2 ++ [face_file])
      else (acc2.1 ++ [face_file], acc2.2))
    acc

/-- The file-collection loop of `create_specular_ktx` (create_ktx.py
lines 54-74): for each mip level whose directory exists, partition the
six face files into `(input_files, missing_files)`; a missing mip
directory is only warned about and skipped (`continue`). -/
def collectSpecularFiles (fileFs dirFs : String → Bool) (input_dir : String) :
    List String × List String :=
  KTX_MIP_LEVELS.foldl
    (fun acc mip_level =>
      let mip_dir := ktxMipDir input_dir mip_level
      if ¬ dirFs mip_dir then acc
      else specFacePartition fileFs mip_dir acc)
    ([], [])

/-- Shallow embedding of `create_specular_ktx` (create_ktx.py lines
27-125).  The second component is the single container-tool invocation
(full command line) when one happens, `none` when the tool is never
invoked. -/
def create_specular_ktx (fileFs dirFs : String → Bool) (env : KtxEnv)
    (input_dir output_name output_dir : String) : Bool × Option (List String) :=
  let ktx_path := output_dir ++ "/" ++ output_name ++ "_specular.ktx2"
  let collected := collectSpecularFiles fileFs dirFs input_dir
  if collected.2 ≠ [] then (false, none)
  else
    let ktx_cmd := specKtxCmdPrefix ++ collected.1 ++ [ktx_path]
    if env.toolRaises then (false, some ktx_cmd)
    else if env.toolReturncode ≠ 0 then (false, some ktx_cmd)
    else if env.infoRaises then (false, some ktx_cmd)
    else (true, some ktx_cmd)

/-- The complete, strictly ordered specular input file list: mip-major
ascending, face-minor ascending. -/
def specOrderedFiles (input_dir : String) : List String :=
  KTX_MIP_LEVELS.flatMap fun mip_level =>
    (List.range' 1 6).map (ktxFaceFile (ktxMipDir input_dir mip_level))

/-! ## blender-envmap.py: `run_command` bake progress parsing

Lines are character lists; the two regexes
`r'Loading cubemap_mip(\d+)'` and `r'Loading cubemap_diffuse'` are
implemented as leftmost substring searches. -/

/-- The literal part of the mip regex. -/
def MIP_MARKER : List Char := "Loading cubemap_mip".toList

/-- The diffuse regex literal. -/
def DIFFUSE_MARKER : List Char := "Loading cubemap_diffuse".toList

/-- Decimal digit-run to number, as `int()` on the captured group. -/
def parseDigits (cs : List Char) : Nat :=
  cs.foldl (fun a c => a * 10 + (c.toNat - 48)) 0

/-- `mip_pattern.search(line)`: leftmost occurrence of the literal
marker followed by at least one digit; returns the greedily captured
number. -/
def mipLineNum : List Char → Option Nat
  | [] => none
  | c :: rest =>
    if MIP_MARKER.isPrefixOf (c :: rest) then
      let ds := ((c :: rest).drop MIP_MARKER.length).takeWhile Char.isDigit
      if ds.isEmpty then mipLineNum rest else some (parseDigits ds)
    else mipLineNum rest

/-- `diffuse_pattern.search(line)` as a boolean. -/
def diffuseLineMatch (line : List Char) : Bool := containsSub DIFFUSE_MARKER line

/-- Parser state: `current_mip` (initially `-1`) and the progress task's
`completed` counter (initially 0). -/
structure BakeState where
  currentMip : Int
  completed : Nat
deriving DecidableEq

/-- Initial parser state (`current_mip = -1`, counter at 0). -/
def initBakeState : BakeState := ⟨-1, 0⟩

/-- Per-line update of `run_command` (blender-envmap.py lines 56-77):
a mip match with `mip_level > current_mip` sets
`completed = current_mip + 1`; a diffuse match then sets
`completed = 11` unconditionally. -/
def processLine (st : BakeState) (line : List Char) : BakeState :=
  let st1 := match mipLineNum line with
    | some n => if st.currentMip < (n : Int) then ⟨(n : Int), n + 1⟩ else st
    | none => st
  if diffuseLineMatch line then { st1 with completed := 11 } else st1

/-- The whole streamed-output parse. -/
def runBakeParser (lines : List (List Char)) : BakeState :=
  lines.foldl processLine initBakeState

/-- `run_command` with `parse_mip=True` (blender-envmap.py lines 35-81):
final parser state, and the returned boolean
`process.returncode == 0`. -/
def run_command (lines : List (List Char)) (returncode : Int) : BakeState × Bool :=
  (runBakeParser lines, returncode == 0)

/-! ## Theorems -/

/-- An external world in which every spawn succeeds with returncode 0
and the info query reports matching dimensions for a 64-pixel face. -/
def okExtractEnv : ExtractEnv :=
  ⟨false, 0, false, "64 x 64".toList, false, 0⟩

/-- C1 counterexample: at mip index 9 the code computes
`512 // 2**9 = 1`, not the claimed `max(8, 512 / 2^9) = 8` — the
extraction size recorded by the Mip-Level Processor at mip 9 is 1. -/
theorem faceSize_mip9_not_clamped :
    faceSize 9 ≠ max 8 (512 / 2 ^ 9) ∧
    (process_roughness_level (fun _ => true) (fun _ => false)
        (fun _ => okExtractEnv) 9 (some "mip9")).extractions.map
        (fun e => e.2.2.2.2) = [1, 1, 1, 1, 1, 1] := by
  constructor
  · decide
  · rfl

/-- C1 (amended): for every mip index the Mip-Level Processor computes
the face size as `512 / 2^i` with integer division and no lower clamp:
`faceSize(0)=512`, `faceSize(6)=8`, but `faceSize(9)=1`. -/
theorem faceSize_pure_division (fileFs dirFs : String → Bool)
    (envs : Nat → ExtractEnv) (i : Nat) (output_subdir : Option String)
    (h : fileFs (mipInputFile i) = true) :
    (∀ e ∈ (process_roughness_level fileFs dirFs envs i
        output_subdir).extractions, e.2.2.2.2 = 512 / 2 ^ i) ∧
    faceSize 0 = 512 ∧ faceSize 6 = 8 ∧ faceSize 9 = 1 := by
  refine ⟨?_, by decide, by decide, by decide⟩
  intro e he
  simp [process_roughness_level, h, roughnessFaces, faceSize, List.enum] at he
  rcases he with h' | h' | h' | h' | h' | h' <;> subst h' <;> rfl

/-- C1 witness: the amended theorem applied at a concrete filesystem. -/
theorem faceSize_pure_division_witness :
    (fun (_ : String) => true) (mipInputFile 9) = true ∧
    faceSize 9 = 512 / 2 ^ 9 := by
  refine ⟨rfl, ?_⟩
  have h := faceSize_pure_division (fun _ => true) (fun _ => false)
    (fun _ => okExtractEnv) 9 (some "mip9") rfl
  exact h.2.2.2.trans (by decide)

/-- C7: at every face size the mip-level face table and the diffuse face
table are the same list, and both equal the spec's FaceSlot geometry
table — BACK=(3,1), FRONT=(1,1), TOP=(2,0), BOTTOM=(2,2), RIGHT=(2,1),
LEFT=(0,1) scaled by the face size, with filenames `0001.exr..0006.exr`
in that slot order. -/
theorem faceTables_match_spec (size : Nat) :
    roughnessFaces size = diffuseFaces size ∧
    roughnessFaces size = specFaceTable size := by
  constructor
  · rfl
  · simp [roughnessFaces, specFaceTable, slotOrder, faceCell, List.enum, pad4]
    repeat' apply And.intro
    all_goals first | decide | omega

/-- C8: for positive face size the six face rectangles are pairwise
disjoint and lie inside the `4*size × 3*size` composite canvas. -/
theorem faceRects_disjoint_in_canvas (size : Nat) (_hs : 0 < size) :
    (∀ a b : FaceSlot, a ≠ b → ∀ p : Nat × Nat,
        rectMem a size p → ¬ rectMem b size p) ∧
    (∀ a : FaceSlot, ∀ p : Nat × Nat,
        rectMem a size p → p.1 < 4 * size ∧ p.2 < 3 * size) := by
  constructor
  · intro a b hab p hpa hpb
    cases a <;> cases b <;>
      first
        | exact hab rfl
        | (simp only [rectMem, faceCell] at hpa hpb; omega)
  · intro a p hpa
    cases a <;> (simp only [rectMem, faceCell] at hpa; omega)

/-- C8 witness: the theorem applied at face size 8 and a concrete point
of the BACK rectangle. -/
theorem faceRects_disjoint_in_canvas_witness :
    (0 : Nat) < 8 ∧ ¬ rectMem FaceSlot.FRONT 8 (24, 8) ∧
    (24 : Nat) < 4 * 8 ∧ (8 : Nat) < 3 * 8 := by
  have h := faceRects_disjoint_in_canvas 8 (by decide)
  refine ⟨by decide, ?_, ?_, ?_⟩
  · exact h.1 FaceSlot.BACK FaceSlot.FRONT (by decide) (24, 8) (by decide)
  · exact (h.2 FaceSlot.BACK (24, 8) (by decide)).1
  · exact (h.2 FaceSlot.BACK (24, 8) (by decide)).2

/-- C2: when the composite input exists, `process_roughness_level`
succeeds iff every one of its six face results is `true`, and all six
face extractions are always launched and gathered (no short-circuit on a
failing sibling). -/
theorem processMipLevel_all_faces (fileFs dirFs : String → Bool)
    (envs : Nat → ExtractEnv) (i : Nat) (output_subdir : Option String)
    (h : fileFs (mipInputFile i) = true) :
    ((process_roughness_level fileFs dirFs envs i output_subdir).success = true ↔
      ∀ b ∈ (process_roughness_level fileFs dirFs envs i output_subdir).faceResults,
        b = true) ∧
    (process_roughness_level fileFs dirFs envs i output_subdir).faceResults.length = 6 ∧
    (process_roughness_level fileFs dirFs envs i output_subdir).extractions.length = 6 := by
  refine ⟨?_, ?_, ?_⟩ <;>
    simp [process_roughness_level, h, roughnessFaces, List.enum, List.all_eq_true]

/-- C2 witness: a run in which face 2's cut exits non-zero — the level
reports failure, yet all six extractions were launched. -/
theorem processMipLevel_all_faces_witness :
    (fun (_ : String) => true) (mipInputFile 0) = true ∧
    (process_roughness_level (fun _ => true) (fun _ => false)
      (fun k => if k == 2 then ⟨false, 1, false, [], false, 0⟩ else okExtractEnv)
      0 (some "mip0")).extractions.length = 6 := by
  refine ⟨rfl, ?_⟩
  exact (processMipLevel_all_faces (fun _ => true) (fun _ => false)
    (fun k => if k == 2 then ⟨false, 1, false, [], false, 0⟩ else okExtractEnv)
    0 (some "mip0") rfl).2.2

/-- C6: when the composite input file for the index is absent,
`process_roughness_level` returns `false` and launches zero face
extractions. -/
theorem processMipLevel_missing_input (fileFs dirFs : String → Bool)
    (envs : Nat → ExtractEnv) (i : Nat) (output_subdir : Option String)
    (h : fileFs (mipInputFile i) = false) :
    (process_roughness_level fileFs dirFs envs i output_subdir).success = false ∧
    (process_roughness_level fileFs dirFs envs i output_subdir).extractions = [] := by
  constructor <;> simp [process_roughness_level, h]

/-- C6 witness: the theorem applied at an empty filesystem. -/
theorem processMipLevel_missing_input_witness :
    (fun (_ : String) => false) (mipInputFile 4) = false ∧
    (process_roughness_level (fun _ => false) (fun _ => false)
      (fun _ => okExtractEnv) 4 (some "mip4")).extractions = [] := by
  refine ⟨rfl, ?_⟩
  exact (processMipLevel_missing_input (fun _ => false) (fun _ => false)
    (fun _ => okExtractEnv) 4 (some "mip4") rfl).2

/-- C10: the per-level target directory is ensured before the
input-existence check, so even a run that fails because the composite
input is absent leaves the (empty) output directory in existence. -/
theorem processMipLevel_dir_created_on_failure (fileFs dirFs : String → Bool)
    (envs : Nat → ExtractEnv) (i : Nat) (output_subdir : Option String)
    (h : fileFs (mipInputFile i) = false) :
    (process_roughness_level fileFs dirFs envs i output_subdir).success = false ∧
    (process_roughness_level fileFs dirFs envs i output_subdir).dirExistsAfter
      (process_roughness_level fileFs dirFs envs i output_subdir).targetDir = true := by
  constructor <;> simp [process_roughness_level, h]

/-- C10 witness: mip 7 with no files and no directories at all — the run
fails but its `output/cropped/mip7` directory exists afterwards. -/
theorem processMipLevel_dir_created_on_failure_witness :
    (fun (_ : String) => false) (mipInputFile 7) = false ∧
    (process_roughness_level (fun _ => false) (fun _ => false)
      (fun _ => okExtractEnv) 7 (some "mip7")).dirExistsAfter
      (process_roughness_level (fun _ => false) (fun _ => false)
        (fun _ => okExtractEnv) 7 (some "mip7")).targetDir = true := by
  refine ⟨rfl, ?_⟩
  exact (processMipLevel_dir_created_on_failure (fun _ => false) (fun _ => false)
    (fun _ => okExtractEnv) 7 (some "mip7") rfl).2

/-- C5: `extract_cubemap_face` returns `false` exactly when a process
invocation raises or the cut step exits non-zero; a dimension mismatch
triggers exactly one corrective re-encode, and a non-zero exit of that
corrective pass is not propagated — the call still returns `true`. -/
theorem extractFace_failure_semantics (env : ExtractEnv)
    (input output : String) (x y size : Nat) :
    ((extract_cubemap_face env input output x y size).1 = false ↔
      (env.cutRaises = true ∨ env.cutReturncode ≠ 0 ∨ env.verifyRaises = true ∨
       (containsSub (sizePattern size) env.infoOutput = false ∧
        env.resizeRaises = true))) ∧
    (ToolCall.reencode output ∈ (extract_cubemap_face env input output x y size).2 ↔
      (env.cutRaises = false ∧ env.cutReturncode = 0 ∧ env.verifyRaises = false ∧
       containsSub (sizePattern size) env.infoOutput = false)) ∧
    (env.cutRaises = false → env.cutReturncode = 0 → env.verifyRaises = false →
     containsSub (sizePattern size) env.infoOutput = false →
     env.resizeRaises = false →
     (extract_cubemap_face env input output x y size).1 = true) := by
  obtain ⟨cr, crc, vr, io, rr, rrc⟩ := env
  cases cr <;> cases vr <;> cases rr <;>
    by_cases hc : crc = 0 <;>
    by_cases hm : containsSub (sizePattern size) io = true <;>
    simp_all [extract_cubemap_face]

/-- C5 witness: a mismatch whose corrective re-encode exits non-zero —
the re-encode was invoked, and the call still returns `true`. -/
theorem extractFace_failure_semantics_witness :
    (extract_cubemap_face ⟨false, 0, false, "bad".toList, false, 1⟩
      "in.hdr" "out.exr" 0 0 512).1 = true ∧
    ToolCall.reencode "out.exr" ∈
      (extract_cubemap_face ⟨false, 0, false, "bad".toList, false, 1⟩
        "in.hdr" "out.exr" 0 0 512).2 := by
  constructor
  · exact (extractFace_failure_semantics ⟨false, 0, false, "bad".toList, false, 1⟩
      "in.hdr" "out.exr" 0 0 512).2.2 rfl rfl rfl (by decide) rfl
  · exact ((extractFace_failure_semantics ⟨false, 0, false, "bad".toList, false, 1⟩
      "in.hdr" "out.exr" 0 0 512).2.1).mpr ⟨rfl, rfl, rfl, by decide⟩

/-- An external world in which all three possible spawns succeed and the
cut returns 0 (the dimension check may go either way). -/
def goodExtractEnv (env : ExtractEnv) : Prop :=
  env.cutRaises = false ∧ env.cutReturncode = 0 ∧
  env.verifyRaises = false ∧ env.resizeRaises = false

lemma extract_ok {env : ExtractEnv} (h : goodExtractEnv env) :
    ∀ input output : String, ∀ x y size : Nat,
      (extract_cubemap_face env input output x y size).1 = true := by
  obtain ⟨h1, h2, h3, h4⟩ := h
  intro input output x y size
  simp [extract_cubemap_face, h1, h2, h3, h4]
  split <;> rfl

lemma level_success_of_good (fileFs dirFs : String → Bool)
    (envs : Nat → ExtractEnv) (i : Nat) (output_subdir : Option String)
    (hin : fileFs (mipInputFile i) = true)
    (hg : ∀ k, goodExtractEnv (envs k)) :
    (process_roughness_level fileFs dirFs envs i output_subdir).success = true := by
  simp [process_roughness_level, hin, roughnessFaces, List.enum,
    extract_ok (hg 0), extract_ok (hg 1), extract_ok (hg 2),
    extract_ok (hg 3), extract_ok (hg 4), extract_ok (hg 5)]

lemma level_failure_of_missing (fileFs dirFs : String → Bool)
    (envs : Nat → ExtractEnv) (i : Nat) (output_subdir : Option String)
    (hin : fileFs (mipInputFile i) = false) :
    (process_roughness_level fileFs dirFs envs i output_subdir).success = false := by
  simp [process_roughness_level, hin]

lemma diffuse_success_of_good (fileFs dirFs : String → Bool)
    (denvs : Nat → ExtractEnv) (hin : fileFs diffuseInputFile = true)
    (hg : ∀ k, goodExtractEnv (denvs k)) :
    (process_diffuse_cubemap fileFs dirFs denvs).success = true := by
  simp [process_diffuse_cubemap, hin, diffuseFaces, List.enum,
    extract_ok (hg 0), extract_ok (hg 1), extract_ok (hg 2),
    extract_ok (hg 3), extract_ok (hg 4), extract_ok (hg 5)]

/-- C4: the Pipeline Coordinator returns the conjunction of every
sub-task's result, and with only mip 3's composite missing (and all
external tools behaving) the per-task result list shows mips
0,1,2,4,…,9 and diffuse succeeding, mip 3 failing, and the overall
result is `false`. -/
theorem pipeline_and_of_results (fileFs dirFs : String → Bool)
    (envs : Nat → Nat → ExtractEnv) (denvs : Nat → ExtractEnv)
    (h3 : fileFs (mipInputFile 3) = false)
    (hrest : ∀ i, i < 10 → i ≠ 3 → fileFs (mipInputFile i) = true)
    (hdiff : fileFs diffuseInputFile = true)
    (hg : ∀ i k, goodExtractEnv (envs i k))
    (hgd : ∀ k, goodExtractEnv (denvs k)) :
    (∀ (ffs dfs : String → Bool) (es : Nat → Nat → ExtractEnv)
       (ds : Nat → ExtractEnv),
       (process_mip_levels ffs dfs es ds).1 =
         (process_mip_levels ffs dfs es ds).2.all id) ∧
    (process_mip_levels fileFs dirFs envs denvs).2 =
      [true, true, true, false, true, true, true, true, true, true, true] ∧
    (process_mip_levels fileFs dirFs envs denvs).1 = false := by
  have hall : ∀ (ffs dfs : String → Bool) (es : Nat → Nat → ExtractEnv)
      (ds : Nat → ExtractEnv),
      (process_mip_levels ffs dfs es ds).1 =
        (process_mip_levels ffs dfs es ds).2.all id := by
    intro ffs dfs es ds; rfl
  have hM : MIP_LEVELS = [0, 1, 2, 3, 4, 5, 6, 7, 8, 9] := rfl
  have hres : (process_mip_levels fileFs dirFs envs denvs).2 =
      [true, true, true, false, true, true, true, true, true, true, true] := by
    simp only [process_mip_levels, hM, List.map_cons, List.map_nil]
    rw [level_success_of_good fileFs dirFs (envs 0) 0 _ (hrest 0 (by omega) (by omega)) (hg 0),
        level_success_of_good fileFs dirFs (envs 1) 1 _ (hrest 1 (by omega) (by omega)) (hg 1),
        level_success_of_good fileFs dirFs (envs 2) 2 _ (hrest 2 (by omega) (by omega)) (hg 2),
        level_failure_of_missing fileFs dirFs (envs 3) 3 _ h3,
        level_success_of_good fileFs dirFs (envs 4) 4 _ (hrest 4 (by omega) (by omega)) (hg 4),
        level_success_of_good fileFs dirFs (envs 5) 5 _ (hrest 5 (by omega) (by omega)) (hg 5),
        level_success_of_good fileFs dirFs (envs 6) 6 _ (hrest 6 (by omega) (by omega)) (hg 6),
        level_success_of_good fileFs dirFs (envs 7) 7 _ (hrest 7 (by omega) (by omega)) (hg 7),
        level_success_of_good fileFs dirFs (envs 8) 8 _ (hrest 8 (by omega) (by omega)) (hg 8),
        level_success_of_good fileFs dirFs (envs 9) 9 _ (hrest 9 (by omega) (by omega)) (hg 9),
        diffuse_success_of_good fileFs dirFs denvs hdiff hgd]
    rfl
  refine ⟨hall, hres, ?_⟩
  rw [hall, hres]
  rfl

lemma okExtractEnv_good : goodExtractEnv okExtractEnv := by
  refine ⟨rfl, rfl, rfl, rfl⟩

/-- C4 witness: the concrete filesystem missing exactly
`output/cubemap_mip3.hdr`, with every external tool succeeding. -/
theorem pipeline_and_of_results_witness :
    (process_mip_levels (fun p => !(p == mipInputFile 3)) (fun _ => false)
      (fun _ _ => okExtractEnv) (fun _ => okExtractEnv)).2 =
      [true, true, true, false, true, true, true, true, true, true, true] ∧
    (process_mip_levels (fun p => !(p == mipInputFile 3)) (fun _ => false)
      (fun _ _ => okExtractEnv) (fun _ => okExtractEnv)).1 = false := by
  have h := pipeline_and_of_results (fun p => !(p == mipInputFile 3))
    (fun _ => false) (fun _ _ => okExtractEnv) (fun _ => okExtractEnv)
    (by decide) (by decide) (by decide) (fun _ _ => okExtractEnv_good)
    (fun _ => okExtractEnv_good)
  exact ⟨h.2.1, h.2.2⟩

/-! ### C3: specular container assembly -/

/-- Per-mip contribution to `input_files` in the collection loop. -/
def specularGoodFiles (fileFs dirFs : String → Bool) (input_dir : String)
    (m : Nat) : List String :=
  if dirFs (ktxMipDir input_dir m) then
    (List.range' 1 6).flatMap fun i =>
      if fileFs (ktxFaceFile (ktxMipDir input_dir m) i) then
        [ktxFaceFile (ktxMipDir input_dir m) i]
      else []
  else []

/-- Per-mip contribution to `missing_files` in the collection loop. -/
def specularMissingFiles (fileFs dirFs : String → Bool) (input_dir : String)
    (m : Nat) : List String :=
  if dirFs (ktxMipDir input_dir m) then
    (List.range' 1 6).flatMap fun i =>
      if fileFs (ktxFaceFile (ktxMipDir input_dir m) i) then []
      else [ktxFaceFile (ktxMipDir input_dir m) i]
  else []

lemma flatMap_eq_nil_of {α β : Type} {l : List α} {f : α → List β}
    (h : ∀ x ∈ l, f x = []) : l.flatMap f = [] := by
  induction l with
  | nil => rfl
  | cons x xs ih =>
    simp only [List.flatMap_cons, h x (by simp),
      ih fun y hy => h y (by simp [hy]), List.nil_append]

lemma flatMap_congr_of {α β : Type} {l : List α} {f g : α → List β}
    (h : ∀ x ∈ l, f x = g x) : l.flatMap f = l.flatMap g := by
  induction l with
  | nil => rfl
  | cons x xs ih =>
    simp only [List.flatMap_cons, h x (by simp),
      ih fun y hy => h y (by simp [hy])]

lemma flatMap_singleton_eq_map {α β : Type} (l : List α) (f : α → β) :
    (l.flatMap fun x => [f x]) = l.map f := by
  induction l <;> simp_all

lemma specFaceFold_aux (fileFs : String → Bool) (mip_dir : String) :
    ∀ (l : List Nat) (acc : List String × List String),
      l.foldl
        (fun acc2 i =>
          let face_file := ktxFaceFile mip_dir i
          if ¬ fileFs face_file then (acc2.1, acc2.2 ++ [face_file])
          else (acc2.1 ++ [face_file], acc2.2))
        acc =
      (acc.1 ++ l.flatMap (fun i =>
          if fileFs (ktxFaceFile mip_dir i) then [ktxFaceFile mip_dir i] else []),
       acc.2 ++ l.flatMap (fun i =>
          if fileFs (ktxFaceFile mip_dir i) then [] else [ktxFaceFile mip_dir i])) := by
  intro l
  induction l with
  | nil => intro acc; simp
  | cons x xs ih =>
    intro acc
    rw [List.foldl_cons, ih]
    by_cases h : fileFs (ktxFaceFile mip_dir x) = true <;>
      simp [h, List.flatMap_cons]

lemma specFacePartition_eq (fileFs : String → Bool) (mip_dir : String)
    (acc : List String × List String) :
    specFacePartition fileFs mip_dir acc =
      (acc.1 ++ (List.range' 1 6).flatMap (fun i =>
          if fileFs (ktxFaceFile mip_dir i) then [ktxFaceFile mip_dir i] else []),
       acc.2 ++ (List.range' 1 6).flatMap (fun i =>
          if fileFs (ktxFaceFile mip_dir i) then [] else [ktxFaceFile mip_dir i])) :=
  specFaceFold_aux fileFs mip_dir (List.range' 1 6) acc

lemma collectFold_aux (fileFs dirFs : String → Bool) (input_dir : String) :
    ∀ (l : List Nat) (acc : List String × List String),
      l.foldl
        (fun acc mip_level =>
          let mip_dir := ktxMipDir input_dir mip_level
          if ¬ dirFs mip_dir then acc
          else specFacePartition fileFs mip_dir acc)
        acc =
      (acc.1 ++ l.flatMap (specularGoodFiles fileFs dirFs input_dir),
       acc.2 ++ l.flatMap (specularMissingFiles fileFs dirFs input_dir)) := by
  intro l
  induction l with
  | nil => intro acc; simp
  | cons x xs ih =>
    intro acc
    rw [List.foldl_cons, ih]
    by_cases h : dirFs (ktxMipDir input_dir x) = true <;>
      simp [h, specFacePartition_eq, specularGoodFiles, specularMissingFiles,
        List.flatMap_cons]

lemma collectSpecularFiles_eq (fileFs dirFs : String → Bool) (input_dir : String) :
    collectSpecularFiles fileFs dirFs input_dir =
      (KTX_MIP_LEVELS.flatMap (specularGoodFiles fileFs dirFs input_dir),
       KTX_MIP_LEVELS.flatMap (specularMissingFiles fileFs dirFs input_dir)) := by
  have h := collectFold_aux fileFs dirFs input_dir KTX_MIP_LEVELS ([], [])
  simpa [collectSpecularFiles] using h

/-- C3: with the complete mip0..mip8 × face1..6 set present, the
specular assembly invokes the container tool exactly once, with the
input files in mip-major, face-minor ascending order; with any single
file of that set missing (and the directories consistent with the files
they hold), it invokes the tool zero times and returns failure. -/
theorem specular_assembly_all_or_nothing (fileFs dirFs : String → Bool)
    (env : KtxEnv) (input_dir output_name output_dir : String)
    (hcoh : ∀ m, m < 9 → ∀ i, i ≤ 6 → 1 ≤ i →
      fileFs (ktxFaceFile (ktxMipDir input_dir m) i) = true →
      dirFs (ktxMipDir input_dir m) = true) :
    ((∀ m, m < 9 → ∀ i, i ≤ 6 → 1 ≤ i →
        fileFs (ktxFaceFile (ktxMipDir input_dir m) i) = true) →
      (create_specular_ktx fileFs dirFs env input_dir output_name output_dir).2 =
        some (specKtxCmdPrefix ++ specOrderedFiles input_dir ++
          [output_dir ++ "/" ++ output_name ++ "_specular.ktx2"])) ∧
    (∀ m0 i0, m0 < 9 → 1 ≤ i0 → i0 ≤ 6 →
      fileFs (ktxFaceFile (ktxMipDir input_dir m0) i0) = false →
      (∀ m, m < 9 → ∀ i, i ≤ 6 → 1 ≤ i → ¬(m = m0 ∧ i = i0) →
        fileFs (ktxFaceFile (ktxMipDir input_dir m) i) = true) →
      create_specular_ktx fileFs dirFs env input_dir output_name output_dir =
        (false, none)) := by
  constructor
  · intro hall
    have hdirs : ∀ m ∈ KTX_MIP_LEVELS, dirFs (ktxMipDir input_dir m) = true := by
      intro m hm
      have hm9 : m < 9 := by
        simpa [KTX_MIP_LEVELS, List.mem_range] using hm
      exact hcoh m hm9 1 (by omega) (by omega) (hall m hm9 1 (by omega) (by omega))
    have hmiss : KTX_MIP_LEVELS.flatMap
        (specularMissingFiles fileFs dirFs input_dir) = [] := by
      apply flatMap_eq_nil_of
      intro m hm
      have hm9 : m < 9 := by
        simpa [KTX_MIP_LEVELS, List.mem_range] using hm
      unfold specularMissingFiles
      rw [if_pos (hdirs m hm)]
      apply flatMap_eq_nil_of
      intro i hi
      have hi' := List.mem_range'_1.mp hi
      rw [if_pos (hall m hm9 i (by omega) (by omega))]
    have hgood : KTX_MIP_LEVELS.flatMap
        (specularGoodFiles fileFs dirFs input_dir) = specOrderedFiles input_dir := by
      unfold specOrderedFiles
      apply flatMap_congr_of
      intro m hm
      have hm9 : m < 9 := by
        simpa [KTX_MIP_LEVELS, List.mem_range] using hm
      unfold specularGoodFiles
      rw [if_pos (hdirs m hm)]
      rw [flatMap_congr_of (g := fun i => [ktxFaceFile (ktxMipDir input_dir m) i])
            (fun i hi => by
              have hi' := List.mem_range'_1.mp hi
              rw [if_pos (hall m hm9 i (by omega) (by omega))]),
          flatMap_singleton_eq_map]
    simp only [create_specular_ktx, collectSpecularFiles_eq, hmiss, hgood]
    simp only [ne_eq, not_true_eq_false, if_false]
    split_ifs <;> rfl
  · intro m0 i0 hm0 hi01 hi06 hmiss0 hrest
    have hj : ∃ j, 1 ≤ j ∧ j ≤ 6 ∧
        fileFs (ktxFaceFile (ktxMipDir input_dir m0) j) = true := by
      by_cases h1 : i0 = 1
      · exact ⟨2, by omega, by omega,
          hrest m0 hm0 2 (by omega) (by omega) (by rintro ⟨-, h2⟩; omega)⟩
      · exact ⟨1, by omega, by omega,
          hrest m0 hm0 1 (by omega) (by omega) (by rintro ⟨-, h2⟩; omega)⟩
    obtain ⟨j, hj1, hj6, hjt⟩ := hj
    have hdir : dirFs (ktxMipDir input_dir m0) = true := hcoh m0 hm0 j hj6 hj1 hjt
    have hmem : ktxFaceFile (ktxMipDir input_dir m0) i0 ∈
        KTX_MIP_LEVELS.flatMap (specularMissingFiles fileFs dirFs input_dir) := by
      rw [List.mem_flatMap]
      refine ⟨m0, by simp [KTX_MIP_LEVELS, List.mem_range]; omega, ?_⟩
      unfold specularMissingFiles
      rw [if_pos hdir, List.mem_flatMap]
      refine ⟨i0, List.mem_range'_1.mpr ⟨hi01, by omega⟩, ?_⟩
      rw [if_neg (by simp [hmiss0])]
      simp
    have hne : KTX_MIP_LEVELS.flatMap
        (specularMissingFiles fileFs dirFs input_dir) ≠ [] :=
      List.ne_nil_of_mem hmem
    simp [create_specular_ktx, collectSpecularFiles_eq, hne]

/-- C3 witness: the complete filesystem yields one invocation in order;
removing exactly `mip3/0004.exr` yields failure with no invocation. -/
theorem specular_assembly_all_or_nothing_witness :
    (create_specular_ktx (fun _ => true) (fun _ => true) ⟨false, 0, false⟩
        "output/cropped" "cubemap" "assets").2 =
      some (specKtxCmdPrefix ++ specOrderedFiles "output/cropped" ++
        ["assets" ++ "/" ++ "cubemap" ++ "_specular.ktx2"]) ∧
    create_specular_ktx
        (fun p => !(p == ktxFaceFile (ktxMipDir "output/cropped" 3) 4))
        (fun _ => true) ⟨false, 0, false⟩
        "output/cropped" "cubemap" "assets" = (false, none) := by
  constructor
  · exact (specular_assembly_all_or_nothing (fun _ => true) (fun _ => true)
      ⟨false, 0, false⟩ "output/cropped" "cubemap" "assets"
      (fun m _ i _ _ _ => rfl)).1 (fun m _ i _ _ => rfl)
  · exact (specular_assembly_all_or_nothing
      (fun p => !(p == ktxFaceFile (ktxMipDir "output/cropped" 3) 4))
      (fun _ => true) ⟨false, 0, false⟩ "output/cropped" "cubemap" "assets"
      (fun m _ i _ _ _ => rfl)).2 3 4 (by omega) (by omega) (by omega)
      (by decide) (by decide)

/-! ### C9: bake progress parser -/

lemma bakeInv_step (st : BakeState) (l : List Char)
    (hd : diffuseLineMatch l = false)
    (hinv : (st.completed : Int) ≤ st.currentMip + 1) :
    ((processLine st l).completed : Int) ≤ (processLine st l).currentMip + 1 ∧
    st.completed ≤ (processLine st l).completed := by
  unfold processLine
  cases hm : mipLineNum l with
  | none => simp [hm, hd]; exact hinv
  | some n =>
    by_cases hlt : st.currentMip < (n : Int)
    · simp [hm, hd, hlt]
      omega
    · simp [hm, hd, hlt]
      exact hinv

lemma bakeFold_mono (ls : List (List Char)) :
    ∀ st : BakeState,
      (∀ l ∈ ls, diffuseLineMatch l = false) →
      (st.completed : Int) ≤ st.currentMip + 1 →
      ((ls.foldl processLine st).completed : Int) ≤
          (ls.foldl processLine st).currentMip + 1 ∧
      st.completed ≤ (ls.foldl processLine st).completed := by
  induction ls with
  | nil => intro st _ hinv; exact ⟨hinv, le_refl _⟩
  | cons x xs ih =>
    intro st hall hinv
    rw [List.foldl_cons]
    have hx := bakeInv_step st x (hall x (by simp)) hinv
    have hxs := ih (processLine st x) (fun l hl => hall l (by simp [hl])) hx.1
    exact ⟨hxs.1, le_trans hx.2 hxs.2⟩

/-- C9 counterexample: after a diffuse marker line the counter is 11,
and a subsequent `mip 0` line (0 > currentMip = -1 still holds, since
the diffuse branch does not touch `currentMip`) drops it to 1 — the
counter decreases. -/
theorem bakeParser_counter_can_decrease :
    (runBakeParser ["Loading cubemap_diffuse".toList]).completed = 11 ∧
    (runBakeParser ["Loading cubemap_diffuse".toList,
        "Loading cubemap_mip0".toList]).completed = 1 ∧
    ¬ ((runBakeParser ["Loading cubemap_diffuse".toList]).completed ≤
       (runBakeParser ["Loading cubemap_diffuse".toList,
          "Loading cubemap_mip0".toList]).completed) := by
  refine ⟨rfl, rfl, ?_⟩
  intro h
  have h1 : (runBakeParser ["Loading cubemap_diffuse".toList]).completed = 11 := rfl
  have h2 : (runBakeParser ["Loading cubemap_diffuse".toList,
      "Loading cubemap_mip0".toList]).completed = 1 := rfl
  rw [h1, h2] at h
  omega

/-- C9 (amended): starting from `currentMip = -1`, a line matching the
mip marker with `N > currentMip` sets the counter to `N+1` and
`currentMip` to `N`, a line matching the diffuse marker sets the counter
to 11 unconditionally, and all other lines leave the state unchanged;
the counter never decreases across any sequence of lines containing no
diffuse marker; and the bake stage's pass/fail result is determined
solely by the renderer exit code being 0, independent of the parsed
lines. -/
theorem bakeParser_step_and_monotone :
    (∀ (st : BakeState) (line : List Char) (n : Nat),
       mipLineNum line = some n → st.currentMip < (n : Int) →
       diffuseLineMatch line = false →
       processLine st line = ⟨(n : Int), n + 1⟩) ∧
    (∀ (st : BakeState) (line : List Char) (n : Nat),
       mipLineNum line = some n → ¬ st.currentMip < (n : Int) →
       diffuseLineMatch line = false →
       processLine st line = st) ∧
    (∀ (st : BakeState) (line : List Char),
       mipLineNum line = none → diffuseLineMatch line = false →
       processLine st line = st) ∧
    (∀ (st : BakeState) (line : List Char),
       diffuseLineMatch line = true →
       (processLine st line).completed = 11) ∧
    (∀ lines₁ lines₂ : List (List Char),
       (∀ l ∈ lines₁ ++ lines₂, diffuseLineMatch l = false) →
       (runBakeParser lines₁).completed ≤
         (runBakeParser (lines₁ ++ lines₂)).completed) ∧
    (∀ (lines lines' : List (List Char)) (rc : Int),
       (run_command lines rc).2 = (run_command lines' rc).2 ∧
       ((run_command lines rc).2 = true ↔ rc = 0)) := by
  refine ⟨?_, ?_, ?_, ?_, ?_, ?_⟩
  · intro st line n hm hlt hd
    simp [processLine, hm, hlt, hd]
  · intro st line n hm hlt hd
    simp [processLine, hm, hlt, hd]
  · intro st line hm hd
    simp [processLine, hm, hd]
  · intro st line hd
    simp [processLine, hd]
  · intro lines₁ lines₂ hall
    have h1 := bakeFold_mono lines₁ initBakeState
      (fun l hl => hall l (by simp [hl])) (by simp [initBakeState])
    have h2 := bakeFold_mono lines₂ (runBakeParser lines₁)
      (fun l hl => hall l (by simp [hl])) h1.1
    simpa [runBakeParser, List.foldl_append] using h2.2
  · intro lines lines' rc
    exact ⟨rfl, by simp [run_command]⟩

/-- C9 witness: the amended theorem applied to two concrete mip lines
and a zero exit code. -/
theorem bakeParser_step_and_monotone_witness :
    (runBakeParser ["Loading cubemap_mip0".toList]).completed ≤
      (runBakeParser ["Loading cubemap_mip0".toList,
        "Loading cubemap_mip3".toList]).completed ∧
    ((run_command [] (0 : Int)).2 = true ↔ (0 : Int) = 0) := by
  constructor
  · exact bakeParser_step_and_monotone.2.2.2.2.1
      ["Loading cubemap_mip0".toList] ["Loading cubemap_mip3".toList]
      (by decide)
  · exact (bakeParser_step_and_monotone.2.2.2.2.2 [] [] 0).2

end BlenderEnvmap
